import Mathlib

/-!
Shallow embedding of `hexdiff.c` (hexadecimal differencing program) and
verification of spec claims about it.

The embedding translates, from the C source:
  * the color-run compression in `print_diff` (lines 104-132),
  * the layout calculator `fit_bytes` (line 158-160) and its use in `main`,
  * the option processing in `main`'s `getopt` loop (lines 176-205),
  * the ASCII substitution `printicize` and the renderer `print_same`,
  * the main read/compare/emit loop (lines 247-281), and
  * the open/seek/close control flow of `main` (lines 221-284).
-/

namespace Hexdiff

/-! ### Colors and the run compressor of `print_diff`

In the C source the per-byte color array holds pointers to `ansi_green`,
`ansi_red` or (after suppression) `empty_str`; pointer comparison of the
distinct string constants is value comparison of this enumeration, and a
suppressed entry is `none`. -/

/-- The two per-byte colors assigned in `print_diff`. -/
inductive AnsiColor where
  | green
  | red
deriving DecidableEq

/-- `color[i] = buf1[i] == buf2[i] ? ansi_green : ansi_red` (hexdiff.c line 110-112). -/
def colors (buf1 buf2 : List Nat) : List AnsiColor :=
  List.zipWith (fun x y => if x = y then AnsiColor.green else AnsiColor.red) buf1 buf2

/-- The loop of `print_diff` at lines 126-132: walking positions `1..n-1`,
an entry equal to the last non-suppressed color becomes `empty_str`
(here `none`); otherwise it is kept and becomes the new last color. -/
def compressTail (last : AnsiColor) : List AnsiColor → List (Option AnsiColor)
  | [] => []
  | c :: cs =>
    if c = last then none :: compressTail last cs
    else some c :: compressTail c cs

/-- The full escape-sequence removal of `print_diff` (hexdiff.c lines 114-132).
`color_last` is initialized to `color[0]`, then position 0 is suppressed when
`color[0] == ansi_red && color[7] == ansi_red` — the index 7 is hardcoded in
the source.  The definition is faithful for chunks of length at least 8; for
shorter chunks the C program reads an indeterminate stack value at `color[7]`
(undefined behavior), which this embedding does not model and no theorem
below instantiates. -/
def print_diff_directives (cs : List AnsiColor) : List (Option AnsiColor) :=
  match cs with
  | [] => []
  | c0 :: rest =>
    let d0 : Option AnsiColor :=
      if c0 = AnsiColor.red ∧ cs.getD 7 AnsiColor.green = AnsiColor.red then none
      else some c0
    d0 :: compressTail c0 rest

/-- Replaying a directive sequence left to right from a starting display
color: a `none` directive leaves the current color, a `some c` switches to
`c`; the result lists the color actually displayed at each byte position. -/
def replayColors (start : AnsiColor) : List (Option AnsiColor) → List AnsiColor
  | [] => []
  | d :: ds =>
    let c := d.getD start
    c :: replayColors c ds

/-- The display color in effect after replaying a whole directive sequence
(the color carried out of a hex block into the following ASCII block). -/
def finalColor (start : AnsiColor) (ds : List (Option AnsiColor)) : AnsiColor :=
  ds.foldl (fun c d => d.getD c) start

/-! ### Layout calculator -/

/-- `fit_bytes` (hexdiff.c lines 158-160):
`((width/2*2) - (12+2+1)*2 - 3)/2/(3+!dense)` with C truncating division. -/
def fit_bytes (width : Int) (dense : Bool) : Int :=
  Int.tdiv (Int.tdiv (Int.tdiv width 2 * 2 - (12 + 2 + 1) * 2 - 3) 2)
    (3 + (if dense then 0 else 1))

/-! ### Option processing in `main` -/

/-- The recognized non-terminating options of the `getopt` loop
(hexdiff.c lines 176-205).  `-h` and unknown options call `show_help` and
exit before any comparison happens, so they have no configuration effect to
model. -/
inductive Opt where
  | a
  | d
  | s
  | n (len : Nat)
  | c (num : Int)
  | w (len : Int)
deriving DecidableEq

/-- Whether an option is one of the two layout options `-c`/`-w`. -/
def Opt.isLayout : Opt → Bool
  | .c _ => true
  | .w _ => true
  | _ => false

/-- The configuration variables of `main` mutated by the `getopt` loop. -/
structure Config where
  show_all : Bool
  dense : Bool
  skip_same : Bool
  size_w : Int
  bytes_w : Int
  max_len : Nat
deriving DecidableEq

/-- Initial configuration: `show_all=0, dense=0, skip_same=0, bytes_w=16,
max_len=0`, and `size_w` set from the `TIOCGWINSZ` ioctl (the terminal
width, or whatever the environment supplies). -/
def initConfig (termWidth : Int) : Config :=
  { show_all := false, dense := false, skip_same := false,
    size_w := termWidth, bytes_w := 16, max_len := 0 }

/-- The two sequential `if`s after `-c`'s `strtoull`: `if (bytes_w < 1)
bytes_w = 16; if (bytes_w > 256) bytes_w = 256;`. -/
def clampColumns (num : Int) : Int :=
  if num < 1 then 16 else if num > 256 then 256 else num

/-- One `case` of the `getopt` switch (hexdiff.c lines 177-204).  `-c`
zeroes `size_w` and runs its argument through `clampColumns`; `-w`
overwrites `size_w`. -/
def applyOpt (cfg : Config) : Opt → Config
  | .a => { cfg with show_all := true }
  | .d => { cfg with dense := true }
  | .s => { cfg with skip_same := true }
  | .n len => { cfg with max_len := len }
  | .c num => { cfg with size_w := 0, bytes_w := clampColumns num }
  | .w len => { cfg with size_w := len }

/-- The whole `getopt` loop: options are applied in command-line order. -/
def parseOpts (termWidth : Int) (opts : List Opt) : Config :=
  opts.foldl applyOpt (initConfig termWidth)

/-- Lines 207-210 of hexdiff.c: when `size_w` is nonzero the row width is
recomputed by `fit_bytes` and clamped below at 1 (there is no upper clamp on
this path); otherwise `bytes_w` is used as is. -/
def finalRowWidth (cfg : Config) : Int :=
  if cfg.size_w ≠ 0 then
    let b := fit_bytes cfg.size_w cfg.dense
    if b < 1 then 1 else b
  else cfg.bytes_w

/-! ### Row rendering -/

/-- ANSI escape sequence `"\x1B[32m"` (green). -/
def ansi_green : String := "\x1B[32m"

/-- ANSI escape sequence `"\x1B[31m"` (red). -/
def ansi_red : String := "\x1B[31m"

/-- ANSI escape sequence `"\x1B[0m"` (reset). -/
def ansi_reset : String := "\x1B[0m"

/-- `printicize` (hexdiff.c lines 68-76): every byte outside the printable
range `[0x20, 0x7e]` is replaced, in place, by `'.'` (0x2e). -/
def printicize (buf : List Nat) : List Nat :=
  buf.map fun b => if b < 0x20 ∨ b > 0x7e then 0x2e else b

/-- `printf("%02hhx", b)`: two lowercase hex digits of the byte value. -/
def byteHex (b : Nat) : String :=
  String.mk [Nat.digitChar (b % 256 / 16), Nat.digitChar (b % 16)]

/-- `printf("0x%010llx", v)` without the `"0x"` prefix: the 64-bit value in
lowercase hex, zero-padded on the left to at least 10 digits. -/
def hexPad10 (v : Nat) : String :=
  let ds := Nat.toDigits 16 (v % 2 ^ 64)
  String.mk (List.replicate (10 - ds.length) '0') ++ String.mk ds

/-- The hex column of one side: each byte as two hex digits, followed by a
space unless dense mode is on (hexdiff.c lines 83-86). -/
def hexBlock (dense : Bool) (buf : List Nat) : String :=
  String.join (buf.map fun b => byteHex b ++ if dense then "" else " ")

/-- The ASCII column of one side: the buffer is `printicize`d and its bytes
printed as characters (hexdiff.c lines 88-89). -/
def asciiBlock (buf : List Nat) : String :=
  String.mk ((printicize buf).map fun b => Char.ofNat b)

/-- What a renderer call leaves behind: the printed text and the final
contents of the two byte buffers (the C renderers mutate them via
`printicize`). -/
structure RenderOut where
  text : String
  buf1After : List Nat
  buf2After : List Nat
deriving DecidableEq

/-- `print_same` (hexdiff.c lines 79-101).  For each side the hex column is
printed from the original buffer, then `printicize` rewrites the buffer in
place and the ASCII column is printed from the rewritten buffer. -/
def print_same (buf1 buf2 : List Nat) (skip1 skip2 cnt : Nat) (dense : Bool) :
    RenderOut :=
  { text := ansi_reset ++ "0x" ++ hexPad10 (skip1 + cnt) ++ "  "
      ++ hexBlock dense buf1 ++ " " ++ asciiBlock buf1 ++ "    "
      ++ "0x" ++ hexPad10 (skip2 + cnt) ++ "  "
      ++ hexBlock dense buf2 ++ " " ++ asciiBlock buf2,
    buf1After := printicize buf1,
    buf2After := printicize buf2 }

/-- The escape sequence a directive prints: `empty_str` for a suppressed
entry, otherwise the color's sequence. -/
def dirStr : Option AnsiColor → String
  | none => ""
  | some AnsiColor.green => ansi_green
  | some AnsiColor.red => ansi_red

/-- `print_diff` (hexdiff.c lines 104-155): directives are computed from the
original buffers, each hex byte and each ASCII character is preceded by its
directive's escape sequence, both offsets are printed in red, and the row
ends with a reset.  Both buffers end up `printicize`d. -/
def print_diff (buf1 buf2 : List Nat) (skip1 skip2 cnt : Nat) (dense : Bool) :
    RenderOut :=
  let ds := print_diff_directives (colors buf1 buf2)
  { text := ansi_red ++ "0x" ++ hexPad10 (skip1 + cnt) ++ "  "
      ++ String.join ((List.zip ds buf1).map fun p =>
          dirStr p.1 ++ byteHex p.2 ++ if dense then "" else " ")
      ++ " "
      ++ String.join ((List.zip ds (printicize buf1)).map fun p =>
          dirStr p.1 ++ String.mk [Char.ofNat p.2])
      ++ "    "
      ++ ansi_red ++ "0x" ++ hexPad10 (skip2 + cnt) ++ "  "
      ++ String.join ((List.zip ds buf2).map fun p =>
          dirStr p.1 ++ byteHex p.2 ++ if dense then "" else " ")
      ++ " "
      ++ String.join ((List.zip ds (printicize buf2)).map fun p =>
          dirStr p.1 ++ String.mk [Char.ofNat p.2])
      ++ ansi_reset,
    buf1After := printicize buf1,
    buf2After := printicize buf2 }

/-! ### The main comparison loop -/

/-- The buffer contents after `memset(buf, 0, bytes_w)` followed by
`fread(buf, 1, bytes_w, file)` on a stream whose remaining bytes are `d`:
the first `min bytes_w d.length` bytes read, zero-padded to `bw`. -/
def padChunk (bw : Nat) (d : List Nat) : List Nat :=
  d.take bw ++ List.replicate (bw - d.length) 0

/-- The iterations of the `while` loop at hexdiff.c lines 250-281, one entry
`(cnt, buf1, buf2)` per executed loop body.  The loop continues while
`input_end == 0 && (cnt < max_len || max_len == 0)`; a short `fread` (fewer
than `bw` bytes remaining) sets `input_end`, so the iteration that consumes
the tail of either file is still processed and is the last.  Structural
recursion on `fuel`; since every continuing iteration removes `bw ≥ 1` bytes
from `d1`, `fuel = d1.length + 1` (supplied by `iters`) never runs out — the
program itself guarantees `1 ≤ bw ≤ 256`.  A cancellation signal only stops
the loop between iterations, truncating this list. -/
def itersAux (bw maxLen : Nat) :
    Nat → List Nat → List Nat → Nat → List (Nat × List Nat × List Nat)
  | 0, _, _, _ => []
  | fuel + 1, d1, d2, cnt =>
    if ¬(cnt < maxLen ∨ maxLen = 0) then []
    else
      let c1 := padChunk bw d1
      let c2 := padChunk bw d2
      if d1.length < bw ∨ d2.length < bw then [(cnt, c1, c2)]
      else (cnt, c1, c2) :: itersAux bw maxLen fuel (d1.drop bw) (d2.drop bw) (cnt + bw)

/-- The loop iterations for remaining file contents `d1`, `d2`, starting at
cumulative offset `cnt`. -/
def iters (bw maxLen : Nat) (d1 d2 : List Nat) (cnt : Nat) :
    List (Nat × List Nat × List Nat) :=
  itersAux bw maxLen (d1.length + 1) d1 d2 cnt

/-- One emitted output line of the loop body: a literal equal row
(`print_same` plus newline), the `"..."` collapse placeholder, or a diff row
(`print_diff` plus newline). -/
inductive Line where
  | same (buf1 buf2 : List Nat) (cnt : Nat)
  | ellipsis
  | diff (buf1 buf2 : List Nat) (cnt : Nat)
deriving DecidableEq

/-- The body of the loop at hexdiff.c lines 266-278: given the two (padded)
buffers, the offset and the current `eq_run`, the lines printed and the new
`eq_run`.  `memcmp(buf1, buf2, bytes_w) == 0` is equality of the padded
buffers. -/
def stepLine (show_all skip_same : Bool) (c1 c2 : List Nat) (cnt eq_run : Nat) :
    List Line × Nat :=
  if c1 = c2 then
    (if (!skip_same && (eq_run == 0)) || show_all then [Line.same c1 c2 cnt]
     else if eq_run == 1 then [Line.ellipsis]
     else [],
     eq_run + 1)
  else ([Line.diff c1 c2 cnt], 0)

/-- The lines printed by each loop iteration in order, threading `eq_run`
through `stepLine`. -/
def emitPerIter (show_all skip_same : Bool) :
    List (Nat × List Nat × List Nat) → Nat → List (List Line)
  | [], _ => []
  | it :: rest, eq_run =>
    let s := stepLine show_all skip_same it.2.1 it.2.2 it.1 eq_run
    s.1 :: emitPerIter show_all skip_same rest s.2

/-- All lines printed by a run of the loop: file contents `d1`, `d2` (after
the seeks), row width `bw`, maximum length `maxLen`, starting with
`cnt = 0` and `eq_run = 0`. -/
def engineOut (show_all skip_same : Bool) (bw maxLen : Nat) (d1 d2 : List Nat) :
    List Line :=
  (emitPerIter show_all skip_same (iters bw maxLen d1 d2 0) 0).flatten

/-- The `eq_run` counter after a sequence of equal/unequal chunk-pair
classifications: incremented on an equal pair, reset to 0 on an unequal
pair (hexdiff.c lines 273 and 277). -/
def runCtr (r : Nat) (eqs : List Bool) : Nat :=
  eqs.foldl (fun acc e => if e then acc + 1 else 0) r

/-- Default triple for indexing into iteration lists. -/
def itDefault : Nat × List Nat × List Nat := (0, [], [])

/-! ### Open/seek/close control flow of `main` -/

/-- The resource trace of `main` (hexdiff.c lines 213-284), according to
which steps succeed: `argsOk` is the argument validation before any open
(lines 213-218), then `fopen(fname1)`, `fopen(fname2)`, `fseeko(file1)`,
`fseeko(file2)` in order, each failure path calling `exit(EXIT_FAILURE)`
directly.  `opened` lists the handles opened on that path and
`closedExplicit` the handles passed to an explicit `fclose` (which happens
only at lines 283-284, after the loop — reached also on cancellation). -/
structure ExitTrace where
  opened : List Nat
  closedExplicit : List Nat
deriving DecidableEq

/-- The resource trace for each exit path of `main`. -/
def mainFileTrace (argsOk open1 open2 seek1 seek2 : Bool) : ExitTrace :=
  if argsOk = false then ⟨[], []⟩
  else if open1 = false then ⟨[], []⟩
  else if open2 = false then ⟨[1], []⟩
  else if seek1 = false then ⟨[1, 2], []⟩
  else if seek2 = false then ⟨[1, 2], []⟩
  else ⟨[1, 2], [1, 2]⟩

/-- Boolean list inclusion: every element of `l1` occurs in `l2`. -/
def subsetB (l1 l2 : List Nat) : Bool :=
  l1.all fun x => l2.contains x

/-! ### Helper lemmas -/

/-- Options other than `-c`/`-w` leave `size_w` and `bytes_w` unchanged. -/
lemma applyOpt_preserve (cfg : Config) (o : Opt) (h : o.isLayout = false) :
    (applyOpt cfg o).size_w = cfg.size_w ∧ (applyOpt cfg o).bytes_w = cfg.bytes_w := by
  cases o with
  | c num => simp [Opt.isLayout] at h
  | w len => simp [Opt.isLayout] at h
  | a => exact ⟨rfl, rfl⟩
  | d => exact ⟨rfl, rfl⟩
  | s => exact ⟨rfl, rfl⟩
  | n len => exact ⟨rfl, rfl⟩

/-- Folding a list of non-layout options preserves `size_w` and `bytes_w`. -/
lemma foldl_applyOpt_preserve (post : List Opt) (h : ∀ o ∈ post, o.isLayout = false)
    (cfg : Config) :
    (post.foldl applyOpt cfg).size_w = cfg.size_w ∧
    (post.foldl applyOpt cfg).bytes_w = cfg.bytes_w := by
  induction post generalizing cfg with
  | nil => exact ⟨rfl, rfl⟩
  | cons o t ih =>
    have ho := h o (List.mem_cons_self o t)
    have ht : ∀ x ∈ t, x.isLayout = false := fun x hx => h x (List.mem_cons_of_mem _ hx)
    have h1 := applyOpt_preserve cfg o ho
    have h2 := ih ht (applyOpt cfg o)
    rw [List.foldl_cons]
    exact ⟨h2.1.trans h1.1, h2.2.trans h1.2⟩

/-- The new `eq_run` after a loop body: incremented on equal buffers, reset
to zero otherwise, independently of the display modes. -/
lemma stepLine_snd (sa ss : Bool) (c1 c2 : List Nat) (cnt r : Nat) :
    (stepLine sa ss c1 c2 cnt r).2 = if c1 = c2 then r + 1 else 0 := by
  by_cases h : c1 = c2 <;> simp [stepLine, h]

/-- The lines printed at iteration `i` are those of `stepLine` applied to
iteration `i`'s buffers with the `eq_run` value accumulated by `runCtr` over
the first `i` equality classifications. -/
lemma emitPerIter_getD (sa ss : Bool) :
    ∀ (its : List (Nat × List Nat × List Nat)) (r i : Nat), i < its.length →
      (emitPerIter sa ss its r).getD i []
        = (stepLine sa ss (its.getD i itDefault).2.1 (its.getD i itDefault).2.2
            (its.getD i itDefault).1
            (runCtr r ((its.map fun x => decide (x.2.1 = x.2.2)).take i))).1 := by
  intro its
  induction its with
  | nil => intro r i h; simp at h
  | cons it rest ih =>
    intro r i h
    cases i with
    | zero => simp [emitPerIter, runCtr]
    | succ i =>
      have hlen : i < rest.length := by simpa using h
      have hrec := ih ((stepLine sa ss it.2.1 it.2.2 it.1 r).2) i hlen
      simp only [emitPerIter, List.getD_cons_succ]
      rw [hrec, stepLine_snd]
      simp only [List.map_cons, List.take_succ_cons, runCtr, List.foldl_cons]
      by_cases he : it.2.1 = it.2.2 <;> simp [he]

/-- `getLast?` skips the head when the tail is nonempty. -/
lemma getLast?_cons_ne {α : Type _} (a : α) (l : List α) (h : l ≠ []) :
    (a :: l).getLast? = l.getLast? := by
  cases l with
  | nil => exact absurd rfl h
  | cons b t => rfl

/-- With `max_len = 0` the loop runs until end-of-input: one iteration per
full chunk available in both inputs, plus the final short-read iteration. -/
lemma itersAux_length (bw : Nat) (hbw : 0 < bw) :
    ∀ (fuel : Nat) (d1 d2 : List Nat) (cnt : Nat), d1.length < fuel →
      (itersAux bw 0 fuel d1 d2 cnt).length
        = min (d1.length / bw) (d2.length / bw) + 1 := by
  intro fuel
  induction fuel with
  | zero => intro d1 d2 cnt h; exact absurd h (Nat.not_lt_zero _)
  | succ fuel ih =>
    intro d1 d2 cnt h
    rw [itersAux]
    rw [if_neg (by simp)]
    by_cases hs : d1.length < bw ∨ d2.length < bw
    · rw [if_pos hs]
      rcases hs with h1 | h2
      · rw [Nat.div_eq_of_lt h1]; simp
      · rw [Nat.div_eq_of_lt h2]; simp
    · rw [if_neg hs]
      push_neg at hs
      have hb1 : bw ≤ d1.length := hs.1
      have hb2 : bw ≤ d2.length := hs.2
      have hlt : (d1.drop bw).length < fuel := by
        simp only [List.length_drop]; omega
      rw [List.length_cons, ih (d1.drop bw) (d2.drop bw) (cnt + bw) hlt]
      simp only [List.length_drop]
      have e1 : d1.length / bw = (d1.length - bw) / bw + 1 := by
        conv_lhs => rw [← Nat.sub_add_cancel hb1]
        rw [Nat.add_div_right _ hbw]
      have e2 : d2.length / bw = (d2.length - bw) / bw + 1 := by
        conv_lhs => rw [← Nat.sub_add_cancel hb2]
        rw [Nat.add_div_right _ hbw]
      omega

/-- With a nonzero `max_len`, no executed iteration starts at a cumulative
offset at or beyond `max_len`. -/
lemma itersAux_mem_lt (bw maxLen : Nat) (hm : maxLen ≠ 0) :
    ∀ (fuel : Nat) (d1 d2 : List Nat) (cnt : Nat) (it : Nat × List Nat × List Nat),
      it ∈ itersAux bw maxLen fuel d1 d2 cnt → it.1 < maxLen := by
  intro fuel
  induction fuel with
  | zero => intro d1 d2 cnt it h; simp [itersAux] at h
  | succ fuel ih =>
    intro d1 d2 cnt it h
    rw [itersAux] at h
    by_cases hc : cnt < maxLen ∨ maxLen = 0
    · rw [if_neg (not_not_intro hc)] at h
      have hcnt : cnt < maxLen := by omega
      by_cases hs : d1.length < bw ∨ d2.length < bw
      · rw [if_pos hs] at h
        simp at h
        rw [h]; exact hcnt
      · rw [if_neg hs] at h
        rcases List.mem_cons.mp h with h1 | h2
        · rw [h1]; exact hcnt
        · exact ih _ _ _ it h2
    · rw [if_pos hc] at h
      simp at h

/-- When both remaining inputs are exact multiples of the row width, the
loop performs the `k` full-chunk iterations and then one final iteration
whose reads return zero bytes, whose buffers are therefore all zero, at
cumulative offset `cnt + k * bw`. -/
lemma itersAux_exact (bw : Nat) (hbw : 0 < bw) :
    ∀ (k : Nat) (d1 d2 : List Nat) (fuel cnt : Nat),
      d1.length = k * bw → d2.length = k * bw → d1.length < fuel →
      (itersAux bw 0 fuel d1 d2 cnt).length = k + 1 ∧
      (itersAux bw 0 fuel d1 d2 cnt).getLast?
        = some (cnt + k * bw, List.replicate bw 0, List.replicate bw 0) := by
  intro k
  induction k with
  | zero =>
    intro d1 d2 fuel cnt h1 h2 hf
    have e1 : d1 = [] := List.length_eq_zero.mp (by simpa using h1)
    have e2 : d2 = [] := List.length_eq_zero.mp (by simpa using h2)
    subst e1; subst e2
    match fuel, hf with
    | fuel + 1, _ =>
      rw [itersAux, if_neg (by simp), if_pos (Or.inl (by simpa using hbw))]
      simp [padChunk]
  | succ k ih =>
    intro d1 d2 fuel cnt h1 h2 hf
    have hb1 : bw ≤ d1.length := by rw [h1, Nat.succ_mul]; omega
    have hb2 : bw ≤ d2.length := by rw [h2, Nat.succ_mul]; omega
    match fuel, hf with
    | fuel + 1, hf =>
      rw [itersAux, if_neg (by simp), if_neg (by omega)]
      have hd1 : (d1.drop bw).length = k * bw := by
        simp only [List.length_drop]; rw [h1, Nat.succ_mul]; omega
      have hd2 : (d2.drop bw).length = k * bw := by
        simp only [List.length_drop]; rw [h2, Nat.succ_mul]; omega
      have hflt : (d1.drop bw).length < fuel := by
        simp only [List.length_drop]; omega
      have hrec := ih (d1.drop bw) (d2.drop bw) fuel (cnt + bw) hd1 hd2 hflt
      constructor
      · rw [List.length_cons, hrec.1]
      · have hne : itersAux bw 0 fuel (d1.drop bw) (d2.drop bw) (cnt + bw) ≠ [] := by
          intro hnil
          have := hrec.1
          rw [hnil] at this
          simp at this
        rw [getLast?_cons_ne _ _ hne, hrec.2]
        have : cnt + bw + k * bw = cnt + (k + 1) * bw := by rw [Nat.succ_mul]; omega
        rw [this]

/-! ### Claim theorems -/

/-- Claim C1: replaying the compressor's directives is claimed to reproduce
the naive per-byte coloring at every position for every row width in
`[1,256]`.  This fails: at row width 9 with `buf1 = 01 00 00 00 00 00 00 01
00` against all zeros, the hardcoded `color[7]` check (red at position 7)
suppresses position 0's directive although the last position is green, so
the replay carried from the hex block into the ASCII block shows Equal-color
at position 0 where the naive coloring is Diff-color. -/
theorem C1_replay_mismatch :
    (replayColors AnsiColor.red
        (print_diff_directives (colors [1, 0, 0, 0, 0, 0, 0, 1, 0] (List.replicate 9 0)))
      = colors [1, 0, 0, 0, 0, 0, 0, 1, 0] (List.replicate 9 0))
    ∧ (replayColors
        (finalColor AnsiColor.red
          (print_diff_directives (colors [1, 0, 0, 0, 0, 0, 0, 1, 0] (List.replicate 9 0))))
        (print_diff_directives (colors [1, 0, 0, 0, 0, 0, 0, 1, 0] (List.replicate 9 0)))
      ≠ colors [1, 0, 0, 0, 0, 0, 0, 1, 0] (List.replicate 9 0))
    ∧ (replayColors
        (finalColor AnsiColor.red
          (print_diff_directives (colors [1, 0, 0, 0, 0, 0, 0, 1, 0] (List.replicate 9 0))))
        (print_diff_directives (colors [1, 0, 0, 0, 0, 0, 0, 1, 0] (List.replicate 9 0)))).getD
        0 AnsiColor.red = AnsiColor.green
    ∧ (colors [1, 0, 0, 0, 0, 0, 0, 1, 0] (List.replicate 9 0)).getD 0 AnsiColor.green
      = AnsiColor.red := by
  decide

/-- Claim C2: the position-0 directive is claimed to be suppressed iff the
intended colors at position 0 and at the last position are both Diff-color.
The code instead tests the hardcoded index 7: at row width 9 with
`buf1 = 01 00 00 00 00 00 00 00 01` against all zeros, positions 0 and 8
are both Diff-color yet the directive at position 0 is kept (`color[7]` is
green).  At row width 8 (where index 7 is the last position) the suppression
behaves as claimed. -/
theorem C2_suppression_mismatch :
    ((colors [1, 0, 0, 0, 0, 0, 0, 0, 1] (List.replicate 9 0)).getD 0 AnsiColor.green
      = AnsiColor.red)
    ∧ ((colors [1, 0, 0, 0, 0, 0, 0, 0, 1] (List.replicate 9 0)).getD 8 AnsiColor.green
      = AnsiColor.red)
    ∧ ((print_diff_directives
        (colors [1, 0, 0, 0, 0, 0, 0, 0, 1] (List.replicate 9 0))).getD 0 none
      = some AnsiColor.red)
    ∧ ((print_diff_directives
        (colors [1, 0, 0, 0, 0, 0, 0, 1] (List.replicate 8 0))).getD 0
        (some AnsiColor.green) = none) := by
  decide

/-- Claim C3: the row width derived from a display width is claimed to be
clamped into `[1,256]`.  The code only clamps below: with `-w 10000` (dense
off) the row width actually used is `fit_bytes 10000 = 1245 > 256`,
overflowing the 256-byte buffers.  The default part of the claim holds: with
`size_w = 0` and no `-c`, the row width stays at the fixed 16. -/
theorem C3_no_upper_clamp :
    finalRowWidth
      { show_all := false, dense := false, skip_same := false,
        size_w := 10000, bytes_w := 16, max_len := 0 } = 1245
    ∧ (256 : Int) < 1245
    ∧ finalRowWidth (initConfig 0) = 16 := by
  decide

/-- Claim C4 counterexample: with the command line `-c 4 -w 100` the `-w`
option, processed after `-c`, re-enables the layout calculator, so the row
width is `fit_bytes 100 = 8`, not 4 — explicit columns does not take
precedence independently of option order. -/
theorem C4_order_counterexample :
    finalRowWidth (parseOpts 0 [Opt.c 4, Opt.w 100]) = 8 ∧ (8 : Int) ≠ 4 := by
  decide

/-- Claim C4 as amended: if `-c N` with `N ∈ [1,256]` is given and no
`-c`/`-w` option appears after it, the row width for the run is exactly `N`,
regardless of the terminal width and of any earlier `-w`. -/
theorem C4_columns_when_last (tw : Int) (pre post : List Opt) (num : Int)
    (h1 : 1 ≤ num) (h2 : num ≤ 256) (h3 : ∀ o ∈ post, o.isLayout = false) :
    finalRowWidth (parseOpts tw (pre ++ Opt.c num :: post)) = num := by
  unfold parseOpts
  rw [List.foldl_append, List.foldl_cons]
  have hc1 : (applyOpt (pre.foldl applyOpt (initConfig tw)) (Opt.c num)).size_w = 0 := rfl
  have hc2 : (applyOpt (pre.foldl applyOpt (initConfig tw)) (Opt.c num)).bytes_w = num := by
    show clampColumns num = num
    unfold clampColumns
    rw [if_neg (by omega), if_neg (by omega)]
  have hp := foldl_applyOpt_preserve post h3 (applyOpt (pre.foldl applyOpt (initConfig tw)) (Opt.c num))
  unfold finalRowWidth
  rw [hp.1, hc1]
  simp [hp.2, hc2]

/-- Witness for `C4_columns_when_last` at the concrete command line
`-w 100 -c 4 -d` with terminal width 777. -/
theorem C4_columns_when_last_witness :
    (1 : Int) ≤ 4 ∧ (4 : Int) ≤ 256 ∧ (∀ o ∈ [Opt.d], o.isLayout = false) ∧
    finalRowWidth (parseOpts 777 ([Opt.w 100] ++ Opt.c 4 :: [Opt.d])) = 4 :=
  ⟨by decide, by decide, by decide,
    C4_columns_when_last 777 [Opt.w 100] [Opt.d] 4 (by decide) (by decide) (by decide)⟩

/-- Claim C5 counterexample: skip-same on, show-all off, row width 8,
file1 = 8 equal bytes then 8 bytes differing from file2's.  The equality
classifications are `[true, false, true]` (two equal runs of length one,
counting the final zero-padded iteration), yet the output contains no
placeholder line at all — not one placeholder per equal run — and the
equal rows are simply dropped, not replaced by placeholders. -/
theorem C5_singleton_run_counterexample :
    engineOut false true 8 0 (List.replicate 8 65 ++ List.replicate 8 66)
        (List.replicate 8 65 ++ List.replicate 8 67)
      = [Line.diff (List.replicate 8 66) (List.replicate 8 67) 8]
    ∧ ((iters 8 0 (List.replicate 8 65 ++ List.replicate 8 66)
        (List.replicate 8 65 ++ List.replicate 8 67) 0).map
          fun x => decide (x.2.1 = x.2.2)) = [true, false, true]
    ∧ Line.ellipsis ∉ engineOut false true 8 0
        (List.replicate 8 65 ++ List.replicate 8 66)
        (List.replicate 8 65 ++ List.replicate 8 67) := by
  decide

/-- Claim C5 as amended: with skip-same on and show-all off, a literal equal
row is never emitted; an equal chunk pair produces the placeholder exactly
when the run counter is 1 and nothing otherwise — so the `RunState == 0`
branch behaves like the `RunState > 1` branch (emitting nothing, not a
placeholder), an equal run of length at least 2 yields exactly one
placeholder, and an equal run of length 1 yields no output at all.  In the
concrete run over two identical 8-byte files the first (and only literal)
equal row is suppressed and the placeholder appears for the second
(zero-padded) equal iteration. -/
theorem C5_skip_same_policy :
    (∀ (its : List (Nat × List Nat × List Nat)) (i : Nat), i < its.length →
      (emitPerIter false true its 0).getD i []
        = (if (its.getD i itDefault).2.1 = (its.getD i itDefault).2.2 then
            (if runCtr 0 ((its.map fun x => decide (x.2.1 = x.2.2)).take i) = 1 then
              [Line.ellipsis]
            else [])
          else [Line.diff (its.getD i itDefault).2.1 (its.getD i itDefault).2.2
            (its.getD i itDefault).1]))
    ∧ engineOut false true 8 0 (List.replicate 8 65) (List.replicate 8 65)
      = [Line.ellipsis] := by
  constructor
  · intro its i hi
    rw [emitPerIter_getD false true its 0 i hi]
    simp only [stepLine, Bool.not_true, Bool.false_and, Bool.false_or, Bool.if_false_left]
    simp
    split <;> rfl
  · decide

/-- Witness for `C5_skip_same_policy` at a concrete single differing
iteration. -/
theorem C5_skip_same_policy_witness :
    0 < ([((0 : Nat), ([1] : List Nat), ([2] : List Nat))]).length ∧
    (emitPerIter false true [(0, [1], [2])] 0).getD 0 [] = [Line.diff [1] [2] 0] :=
  ⟨by decide, by simpa using C5_skip_same_policy.1 [(0, [1], [2])] 0 (by decide)⟩

/-- Claim C6: with collapsing active (show-all off, skip-same off) each
iteration of an equal run emits the literal row when the run counter is 0,
exactly one placeholder when it is 1, and nothing afterwards, while a
differing pair emits its diff row and resets the counter; in particular two
identical 32-byte files of 0x41 at row width 8 produce exactly the first
literal row followed by one placeholder. -/
theorem C6_equal_run_collapse :
    (∀ (its : List (Nat × List Nat × List Nat)) (i : Nat), i < its.length →
      (emitPerIter false false its 0).getD i []
        = (if (its.getD i itDefault).2.1 = (its.getD i itDefault).2.2 then
            (if runCtr 0 ((its.map fun x => decide (x.2.1 = x.2.2)).take i) = 0 then
              [Line.same (its.getD i itDefault).2.1 (its.getD i itDefault).2.2
                (its.getD i itDefault).1]
            else if runCtr 0 ((its.map fun x => decide (x.2.1 = x.2.2)).take i) = 1 then
              [Line.ellipsis]
            else [])
          else [Line.diff (its.getD i itDefault).2.1 (its.getD i itDefault).2.2
            (its.getD i itDefault).1]))
    ∧ (∀ (sa ss : Bool) (c1 c2 : List Nat) (cnt r : Nat),
        (stepLine sa ss c1 c2 cnt r).2 = if c1 = c2 then r + 1 else 0)
    ∧ engineOut false false 8 0 (List.replicate 32 65) (List.replicate 32 65)
      = [Line.same (List.replicate 8 65) (List.replicate 8 65) 0, Line.ellipsis] := by
  refine ⟨?_, stepLine_snd, by decide⟩
  intro its i hi
  rw [emitPerIter_getD false false its 0 i hi]
  simp [stepLine]
  split <;> rfl

/-- Witness for `C6_equal_run_collapse` at a concrete single equal
iteration: the first equal row of a run is printed literally. -/
theorem C6_equal_run_collapse_witness :
    0 < ([((0 : Nat), ([5] : List Nat), ([5] : List Nat))]).length ∧
    (emitPerIter false false [(0, [5], [5])] 0).getD 0 [] = [Line.same [5] [5] 0] :=
  ⟨by decide, by simpa using C6_equal_run_collapse.1 [(0, [5], [5])] 0 (by decide)⟩

/-- Claim C7 counterexample: with `max_len = 10` and row width 8, the loop
performs iterations at offsets 0 and 8; the second compares bytes 8..15, so
16 bytes in total are compared — more than the 10 requested, and bytes
beyond offset 10 are compared. -/
theorem C7_overrun_counterexample :
    ((iters 8 10 (List.replicate 24 1) (List.replicate 24 2) 0).map Prod.fst = [0, 8])
    ∧ ¬(8 + 8 ≤ 10) := by
  decide

/-- Claim C7 as amended: with `max_len = 0` the loop is unbounded and stops
exactly at end-of-input (one iteration per full chunk present in both
inputs, plus the final short-read iteration); with nonzero `max_len` no
iteration starts at an offset at or beyond `max_len`, so fewer than
`max_len + bw` bytes are compared — but the final chunk may extend up to
`bw - 1` bytes past `max_len`. -/
theorem C7_max_len_loop (bw maxLen : Nat) (d1 d2 : List Nat) (hbw : 0 < bw) :
    (maxLen = 0 →
      (iters bw maxLen d1 d2 0).length = min (d1.length / bw) (d2.length / bw) + 1)
    ∧ (maxLen ≠ 0 →
        ∀ it ∈ iters bw maxLen d1 d2 0, it.1 < maxLen ∧ it.1 + bw < maxLen + bw) := by
  constructor
  · intro h0
    rw [h0]
    exact itersAux_length bw hbw (d1.length + 1) d1 d2 0 (Nat.lt_succ_self _)
  · intro hm it hit
    have := itersAux_mem_lt bw maxLen hm (d1.length + 1) d1 d2 0 it hit
    omega

/-- Witness for `C7_max_len_loop`: concrete run with `max_len = 10`,
row width 8 and 24-byte inputs; every iteration starts below offset 10. -/
theorem C7_max_len_loop_witness :
    0 < 8 ∧ (10 : Nat) ≠ 0 ∧
    ∀ it ∈ iters 8 10 (List.replicate 24 1) (List.replicate 24 2) 0, it.1 < 10 :=
  ⟨by decide, by decide, fun it hit =>
    ((C7_max_len_loop 8 10 (List.replicate 24 1) (List.replicate 24 2)
      (by decide)).2 (by decide) it hit).1⟩

/-- Claim C8 counterexample: rendering an equal row mutates the chunk
buffer in place: after `print_same` on the single byte `0x00`, the buffer
holds `0x2e` (`'.'`), not its original contents. -/
theorem C8_mutation_counterexample :
    (print_same [0] [65] 0 0 0 false).buf1After = [46] ∧ ([46] : List Nat) ≠ [0] := by
  decide

/-- Claim C8 as amended: the renderer mutates the chunk buffers in place —
after `print_same` each buffer holds `printicize` of its previous contents
(non-printable bytes replaced by `'.'` after the hex column has been
printed) — and a chunk whose bytes are all printable is left unchanged.
The equality comparison is unaffected only because `memcmp` runs before
rendering and the buffers are refilled by `memset`/`fread` each iteration. -/
theorem C8_printicize_in_place (buf1 buf2 : List Nat) (s1 s2 c : Nat) (d : Bool)
    (h : ∀ b ∈ buf1, 0x20 ≤ b ∧ b ≤ 0x7e) :
    (print_same buf1 buf2 s1 s2 c d).buf1After = printicize buf1
    ∧ (print_same buf1 buf2 s1 s2 c d).buf2After = printicize buf2
    ∧ (print_same buf1 buf2 s1 s2 c d).buf1After = buf1 := by
  refine ⟨rfl, rfl, ?_⟩
  show printicize buf1 = buf1
  unfold printicize
  induction buf1 with
  | nil => rfl
  | cons b t ih =>
    have hb := h b (List.mem_cons_self b t)
    have ht : ∀ x ∈ t, 0x20 ≤ x ∧ x ≤ 0x7e := fun x hx => h x (List.mem_cons_of_mem _ hx)
    rw [List.map_cons, ih ht, if_neg (by omega)]

/-- Witness for `C8_printicize_in_place` on an all-printable chunk. -/
theorem C8_printicize_in_place_witness :
    (∀ b ∈ ([65, 46] : List Nat), 0x20 ≤ b ∧ b ≤ 0x7e) ∧
    (print_same [65, 46] [0] 0 0 0 false).buf1After = [65, 46] :=
  ⟨by decide, (C8_printicize_in_place [65, 46] [0] 0 0 0 false (by decide)).2.2⟩

/-- Claim C9 counterexample: when `fopen(fname2)` fails, `main` calls
`exit(EXIT_FAILURE)` while `file1` is open, without any explicit `fclose` —
the opened handle is not explicitly released on that exit path. -/
theorem C9_open2_failure_counterexample :
    (mainFileTrace true true false true true).opened = [1]
    ∧ (mainFileTrace true true false true true).closedExplicit = []
    ∧ subsetB (mainFileTrace true true false true true).opened
        (mainFileTrace true true false true true).closedExplicit = false := by
  decide

/-- Claim C9 as amended: every opened handle is explicitly closed exactly
on the paths that reach the main loop (normal completion and cancellation)
or that open nothing (argument errors, `file1` open failure); on a `file2`
open failure or either seek failure the already-opened handles are
terminated by `exit` without an explicit `fclose`. -/
theorem C9_close_paths :
    ∀ a o1 o2 s1 s2 : Bool,
      subsetB (mainFileTrace a o1 o2 s1 s2).opened
          (mainFileTrace a o1 o2 s1 s2).closedExplicit
        = (!a || !o1 || (o2 && s1 && s2)) := by
  decide

/-- Claim C10 counterexample: for two identical 8-byte files at row width 8
the loop does perform the extra all-zero iteration, but it is emitted as a
collapse placeholder (the run counter is 1), not as an equal row of 00
bytes; no such row appears in the output. -/
theorem C10_emission_counterexample :
    engineOut false false 8 0 (List.replicate 8 65) (List.replicate 8 65)
      = [Line.same (List.replicate 8 65) (List.replicate 8 65) 0, Line.ellipsis]
    ∧ Line.same (List.replicate 8 0) (List.replicate 8 0) 8
      ∉ engineOut false false 8 0 (List.replicate 8 65) (List.replicate 8 65) := by
  decide

/-- Claim C10 as amended: when both inputs end exactly at a chunk boundary
(`k` whole chunks each) the loop still performs one final iteration whose
reads return zero bytes: it processes `k + 1` chunk pairs, the last being
the all-zero pair at cumulative offset `k * bw`, and that pair goes through
the normal emission policy (so for two empty files — `k = 0` with no prior
equal run — it is emitted as a literal equal row of 00 bytes). -/
theorem C10_final_zero_chunk (bw k : Nat) (d1 d2 : List Nat) (hbw : 0 < bw)
    (h1 : d1.length = k * bw) (h2 : d2.length = k * bw) :
    (iters bw 0 d1 d2 0).length = k + 1
    ∧ (iters bw 0 d1 d2 0).getLast?
      = some (k * bw, List.replicate bw 0, List.replicate bw 0)
    ∧ engineOut false false 8 0 [] []
      = [Line.same (List.replicate 8 0) (List.replicate 8 0) 0] := by
  have := itersAux_exact bw hbw k d1 d2 (d1.length + 1) 0 h1 h2 (Nat.lt_succ_self _)
  exact ⟨this.1, by simpa using this.2, by decide⟩

/-- Witness for `C10_final_zero_chunk` with two identical 8-byte files at
row width 8: two iterations, the last at offset 8 with all-zero buffers. -/
theorem C10_final_zero_chunk_witness :
    0 < 8 ∧ (List.replicate 8 65).length = 1 * 8 ∧
    (iters 8 0 (List.replicate 8 65) (List.replicate 8 65) 0).getLast?
      = some (1 * 8, List.replicate 8 0, List.replicate 8 0) :=
  ⟨by decide, by decide,
    (C10_final_zero_chunk 8 1 (List.replicate 8 65) (List.replicate 8 65)
      (by decide) (by decide) (by decide)).2.1⟩

end Hexdiff
